import Mathlib

/-!
# hecate: error responses for HTTP handlers

A shallow embedding of `hecate.go`.  The response writer is output only, so every
entry point returns the sequence of calls it makes on the writer together with the
lines it hands to the diagnostic log.  Everything the Go runtime and the standard
library decide (the active call stack, the goroutine dump, the visiting order of a
`range` over a map, the outcome of `json.Marshal`) is read from an explicit
environment.
-/

namespace Hecate

/-! ## Data model -/

/-- A program counter as resolved by `runtime.FuncForPC`: source file, line and the
name of the function. -/
structure Frame where
  file : String
  line : Nat
  function : String
deriving DecidableEq, Repr

/-- The JSON values that the fields of `errorInfo` can take. -/
inductive JSONValue where
  | null
  | string (s : String)
  | stringArray (xs : List String)
deriving DecidableEq, Repr

/-- The struct `errorInfo`.  `Trace` is a Go slice: `none` is the nil slice. -/
structure errorInfo where
  Trace : Option (List String)
  Err : String
deriving DecidableEq, Repr

/-- The struct `ErrorBox`. -/
structure ErrorBox where
  Err : Bool
deriving DecidableEq, Repr

/-- The calls a handler can make on an `http.ResponseWriter`. -/
inductive Call where
  | headerSet (key value : String)
  | writeHeader (status : Int)
  | write (body : String)
deriving DecidableEq, Repr

/-- What one call of a handler did: the calls on the response writer in order, the
messages passed to `log.Printf` in order, and whether the goroutine panicked. -/
structure Outcome where
  calls : List Call
  log : List String
  panicked : Bool
deriving DecidableEq, Repr

/-- The map `frames` of `handleAllErrors`, as its list of entries. -/
abbrev FrameMap := List (Nat × String)

/-- Everything outside `hecate.go` that a call depends on. -/
structure Env where
  /-- The package variable `DebugLevel`. -/
  DebugLevel : Int
  /-- The text `string(buf[:count])` obtained from `runtime.Stack(buf, true)`. -/
  goroutineDump : String
  /-- The order in which `range` visits the entries of a map. -/
  rangeOrder : FrameMap → FrameMap
  /-- A `range` visits every entry exactly once. -/
  rangeOrder_perm : ∀ m : FrameMap, List.Perm (rangeOrder m) m
  /-- The encoder behind `json.Marshal`, applied to the fields of the struct. -/
  jsonEncode : List (String × JSONValue) → Except String String
  /-- The path under which `hecate.go` was compiled. -/
  srcFile : String
  /-- The import path of the package. -/
  pkgPath : String
  /-- How the build resolves the return address of a call made by a function of this
  package: given the frame of that function at the line of the call and the stack above it,
  the stack that `runtime.FuncForPC` and `FileLine` report to the callee.  A function with a
  frame of its own shows up first, at the line of the call or the one after it; a function
  that the compiler inlined leaves only its caller. -/
  entry : Frame → List Frame → List Frame

/-! ## Standard library: `fmt` with an empty operand list -/

/-- The flag characters of a formatting directive. -/
def isFlag (c : Char) : Bool :=
  c == '#' || c == '0' || c == '+' || c == '-' || c == ' '

/-- The function `tooLarge` of package `fmt`. -/
def tooLarge (x : Nat) : Bool := decide (1000000 < x)

/-- The function `parsenum` of package `fmt` on the text up to its `end`: the number, whether
one was read, and the text left.  On overflow everything up to `end` is consumed. -/
def parsenum : List Char → Nat → Bool → Nat × Bool × List Char
  | [], num, isnum => (num, isnum, [])
  | c :: cs, num, isnum =>
    if c.isDigit then
      if tooLarge num then (0, false, [])
      else parsenum cs (num * 10 + (c.toNat - 48)) true
    else (num, isnum, c :: cs)

/-- The function `parseArgNumber` of package `fmt`, given the text after the opening
bracket: the text left and whether a well-formed index was read. -/
def parseArgNumber (rest : List Char) : List Char × Bool :=
  if rest.length < 2 then (rest, false)
  else
    match rest.dropWhile (fun c => c != ']') with
    | [] => (rest, false)
    | _ :: after =>
      match parsenum (rest.takeWhile (fun c => c != ']')) 0 false with
      | (_, true, []) => (after, true)
      | _ => (after, false)

/-- The method `argNumber` of package `fmt` when there are no operands: the text left, whether
an index was found, and whether a bracket was seen (every index is then out of range). -/
def argNumber (s : List Char) : List Char × Bool × Bool :=
  match s with
  | '[' :: rest => ((parseArgNumber rest).1, (parseArgNumber rest).2, true)
  | _ => (s, false, false)

/-- The width part of a directive: text written, text left, `afterIndex`, and whether
the argument number became bad. -/
def parseWidth (s : List Char) (afterIndex : Bool) : List Char × List Char × Bool × Bool :=
  match s with
  | '*' :: t => ("%!(BADWIDTH)".toList, t, false, false)
  | _ => ([], (parsenum s 0 false).2.2, afterIndex, afterIndex && (parsenum s 0 false).2.1)

/-- The precision part of a directive, same results as `parseWidth`.  A period counts as
the start of a precision only when text follows it (`i+1 < end`); a final period is left
to be the verb. -/
def parsePrecision (s : List Char) (afterIndex : Bool) : List Char × List Char × Bool × Bool :=
  match s with
  | '.' :: c :: t =>
    match (argNumber (c :: t)).1 with
    | '*' :: u => ("%!(BADPREC)".toList, u, false, afterIndex || (argNumber (c :: t)).2.2)
    | u =>
      ([], (parsenum u 0 false).2.2, (argNumber (c :: t)).2.1,
       afterIndex || (argNumber (c :: t)).2.2)
  | _ => ([], s, afterIndex, false)

/-- The verb of a directive: text written and text left. -/
def parseVerb (s : List Char) (bad : Bool) : List Char × List Char :=
  match s with
  | [] => ("%!(NOVERB)".toList, [])
  | verb :: t =>
    if verb == '%' then (['%'], t)
    else if bad then ("%!".toList ++ [verb] ++ "(BADINDEX)".toList, t)
    else ("%!".toList ++ [verb] ++ "(MISSING)".toList, t)

/-- One directive of `doPrintf`, given the text after its percent sign, when there are
no operands: the text written and the text left. -/
def directive (s : List Char) : List Char × List Char :=
  let s1 := s.dropWhile isFlag
  let a1 := argNumber s1
  let w := parseWidth a1.1 a1.2.1
  let p := parsePrecision w.2.1 w.2.2.1
  let a2 := if p.2.2.1 then (p.2.1, false, false) else argNumber p.2.1
  let v := parseVerb a2.1 (a1.2.2 || w.2.2.2 || p.2.2.2 || a2.2.2)
  (w.1 ++ p.1 ++ v.1, v.2)

/-- The method `doPrintf` of package `fmt` with an empty operand list.  Every round consumes
at least the percent sign, so `fuel` above the length of the format is never used up. -/
def doPrintf : Nat → List Char → List Char
  | 0, _ => []
  | fuel + 1, s =>
    match s.dropWhile (fun c => c != '%') with
    | [] => s.takeWhile (fun c => c != '%')
    | _ :: t => s.takeWhile (fun c => c != '%') ++ (directive t).1 ++ doPrintf fuel (directive t).2

/-- The message of the error `fmt.Errorf(format)`. -/
def Errorf (format : String) : String :=
  String.mk (doPrintf (format.toList.length + 1) format.toList)

/-- The function `fmt.Sprintf("%s:%d %s\n", file, line, name)` of the capture loop. -/
def frameString (f : Frame) : String :=
  f.file ++ ":" ++ toString f.line ++ " " ++ f.function ++ "\n"

/-! ## Standard library: `runtime`, `net/http`, `encoding/json` -/

/-- The function `runtime.Callers(skip, pc)` with `len(pc) = pcLen`: `stack` is the active call
stack, innermost first, with the frame of `runtime.Callers` itself at index 0. -/
def runtimeCallers (skip pcLen : Nat) (stack : List Frame) : List Frame :=
  (stack.drop skip).take pcLen

/-- The frame of `runtime.Callers` itself. -/
def callersFrame : Frame := ⟨"runtime/extern.go", 0, "runtime.Callers"⟩

/-- The frame of a function of this package with a call in progress on line `line`. -/
def ownFrame (env : Env) (fn : String) (line : Nat) : Frame :=
  ⟨env.srcFile, line, env.pkgPath ++ "." ++ fn⟩

/-- The frame found for a program counter of value zero. -/
def zeroFrame : Frame := ⟨"", 0, ""⟩

/-- The function `http.Error`: two headers, the status line, and the message written with
`fmt.Fprintln`. -/
def httpError (error : String) (code : Int) : List Call :=
  [Call.headerSet "Content-Type" "text/plain; charset=utf-8",
   Call.headerSet "X-Content-Type-Options" "nosniff",
   Call.writeHeader code,
   Call.write (error ++ "\n")]

/-- The three calls of the JSON branch of `handleAllErrors`. -/
def jsonResponse (jsonBytes : String) (status : Int) : List Call :=
  [Call.headerSet "Content-Type" "application/json",
   Call.writeHeader status,
   Call.write jsonBytes]

/-- The JSON object for an `errorInfo`, field by field as its struct tags name them; a nil
slice is encoded as `null`. -/
def errorInfo.toJSON (e : errorInfo) : List (String × JSONValue) :=
  [("trace", match e.Trace with
      | none => JSONValue.null
      | some xs => JSONValue.stringArray xs),
   ("err", JSONValue.string e.Err)]

/-- The function `json.Marshal` on an `errorInfo`. -/
def jsonMarshal (env : Env) (e : errorInfo) : Except String String :=
  env.jsonEncode e.toJSON

/-- The builtin `append` on a slice of strings. -/
def goAppend : Option (List String) → String → Option (List String)
  | none, x => some [x]
  | some xs, x => some (xs ++ [x])

/-- The assignment `m[k] = v` on a map. -/
def mapSet (m : FrameMap) (k : Nat) (v : String) : FrameMap :=
  m.filter (fun e => e.1 != k) ++ [(k, v)]

/-! ## The response as a recorder sees it -/

/-- A recorded response: headers, status line (if written) and body. -/
structure Response where
  header : List (String × String)
  status : Option Int
  body : String
deriving DecidableEq, Repr

/-- Effect of one call on the recorded response.  Only the first `WriteHeader` counts, and
a `Write` before any `WriteHeader` implies status 200. -/
def Response.step (r : Response) : Call → Response
  | Call.headerSet k v => ⟨r.header.filter (fun e => e.1 != k) ++ [(k, v)], r.status, r.body⟩
  | Call.writeHeader c => ⟨r.header, some (r.status.getD c), r.body⟩
  | Call.write b => ⟨r.header, some (r.status.getD 200), r.body ++ b⟩

/-- The response recorded from a sequence of calls on a fresh writer. -/
def record (calls : List Call) : Response :=
  calls.foldl Response.step ⟨[], none, ""⟩

/-- The value of the `Content-Type` header of a recorded response. -/
def Response.contentType (r : Response) : Option String :=
  (r.header.find? (fun e => e.1 == "Content-Type")).map (fun e => e.2)

/-! ## hecate.go -/

/-- The function `NoErrorOccurred`. -/
def NoErrorOccurred : ErrorBox := ⟨false⟩

/-- The capture loop of `handleAllErrors` (lines 89 to 96) from index `i` on: `fpcs` holds
the resolved program counters, `length` is what `runtime.Callers` returned.  The index
is incremented in the body and again in the loop clause. -/
def captureLoop (fpcs : List Frame) (length : Nat) :
    Nat → Nat → FrameMap → List String → FrameMap × List String
  | 0, _, frames, log => (frames, log)
  | fuel + 1, i, frames, log =>
    if i < length then
      captureLoop fpcs length fuel (i + 1 + 1)
        (mapSet frames i (frameString (fpcs.getD i zeroFrame)))
        (log ++ [frameString (fpcs.getD i zeroFrame)])
    else (frames, log)

/-- The slice `fpcs[:length]` after `runtime.Callers(2, fpcs)` on line 88, each program counter
resolved.  `callers` is the call stack above `handleAllErrors`, its caller first. -/
def fpcs (env : Env) (callers : List Frame) : List Frame :=
  runtimeCallers 2 32 (callersFrame :: ownFrame env "handleAllErrors" 88 :: callers)

/-- The capture phase of `handleAllErrors` (lines 66 to 97): the map `frames` and the lines
logged.  The loop runs with as much fuel as there are frames. -/
def captureFrames (env : Env) (callers : List Frame) (allStacks : Bool) : FrameMap × List String :=
  if allStacks then
    (mapSet [] 0 env.goroutineDump, [])
  else
    captureLoop (fpcs env callers) (fpcs env callers).length (fpcs env callers).length 0 [] []

/-- The `errorInfo` built on lines 102 to 105: the trace starts as the nil slice and gets one
string per entry that the `range` over `frames` visits. -/
def buildErrorInfo (env : Env) (frames : FrameMap) (msg : String) : errorInfo :=
  ⟨(env.rangeOrder frames).foldl (fun trace e => goAppend trace e.2) none, msg⟩

/-- The function `handleAllErrors`.  `err` is `none` for the nil error, on which calling
`Error` panics, and otherwise the text that `err.Error()` returns. -/
def handleAllErrors (env : Env) (callers : List Frame) (err : Option String) (status : Int)
    (stackDump allStacks : Bool) : Outcome :=
  if stackDump == true then
    let captured := captureFrames env callers allStacks
    if env.DebugLevel > 0 then
      match err with
      | none => ⟨[], captured.2, true⟩
      | some msg =>
        match jsonMarshal env (buildErrorInfo env captured.1 msg) with
        | Except.error e => ⟨httpError e status, captured.2, false⟩
        | Except.ok jsonBytes => ⟨jsonResponse jsonBytes status, captured.2, false⟩
    else
      match err with
      | none => ⟨[], captured.2, true⟩
      | some msg => ⟨httpError msg status, captured.2, false⟩
  else
    match err with
    | none => ⟨[], [], true⟩
    | some msg => ⟨httpError msg status, [], false⟩

/-- The function `HandleError`; `callers` is the call stack above it, its caller first.  What
`handleAllErrors` finds above itself is what the build makes of the call on line 50. -/
def HandleError (env : Env) (callers : List Frame) (err : Option String) (status : Int)
    (stackDump : Bool) : Outcome :=
  handleAllErrors env (env.entry (ownFrame env "HandleError" 50) callers) err status stackDump
    false

/-- The function `HandlePanic`. -/
def HandlePanic (env : Env) (callers : List Frame) : Outcome :=
  handleAllErrors env (env.entry (ownFrame env "HandlePanic" 57) callers)
    (some (Errorf "Panic.")) 500 true true

/-- The function `ReportAndPassError`: the box it returns and what the call did. -/
def ReportAndPassError (env : Env) (callers : List Frame) (str : String) (status : Int)
    (stackDump : Bool) : ErrorBox × Outcome :=
  (⟨true⟩,
   HandleError env (env.entry (ownFrame env "ReportAndPassError" 35) callers)
     (some (Errorf str)) status stackDump)

/-! ## Reference definitions and example environments -/

/-- The entries that a loop over the indices `i`, `i + 2`, `i + 4`, ... below `n` stores. -/
def evenEntries (fpcs : List Frame) (i n : Nat) : FrameMap :=
  (List.range ((n - i + 1) / 2)).map
    (fun k => (i + 2 * k, frameString (fpcs.getD (i + 2 * k) zeroFrame)))

/-- Whether a call is a `WriteHeader`. -/
def Call.isWriteHeader : Call → Bool
  | Call.writeHeader _ => true
  | _ => false

/-- Whether a call is a `Write`. -/
def Call.isWrite : Call → Bool
  | Call.write _ => true
  | _ => false

/-- The hexadecimal digit of a number below 16, in lower case. -/
def hexDigit (n : Nat) : Char :=
  if n < 10 then Char.ofNat (48 + n) else Char.ofNat (87 + n)

/-- The escape `\uXXXX` of a character of the basic plane. -/
def unicodeEscape (c : Char) : String :=
  "\\u" ++ String.mk [hexDigit (c.toNat / 4096 % 16), hexDigit (c.toNat / 256 % 16),
    hexDigit (c.toNat / 16 % 16), hexDigit (c.toNat % 16)]

/-- One character of a JSON string as `encoding/json` writes it with HTML escaping on: short
escapes for the quote, the backslash, line feed, carriage return and tab, and `\uXXXX` for
the other control characters, for `<`, `>`, `&` and for the two Unicode line separators. -/
def escapeJSON (c : Char) : String :=
  if c == '"' then "\\\""
  else if c == '\\' then "\\\\"
  else if c == '\n' then "\\n"
  else if c == '\r' then "\\r"
  else if c == '\t' then "\\t"
  else if c.toNat < 32 || c == '<' || c == '>' || c == '&' || c.toNat == 8232
      || c.toNat == 8233 then unicodeEscape c
  else String.singleton c

/-- A JSON string literal. -/
def quoteJSON (s : String) : String :=
  "\"" ++ String.join (s.toList.map escapeJSON) ++ "\""

/-- Compact text of a JSON value. -/
def renderValue : JSONValue → String
  | JSONValue.null => "null"
  | JSONValue.string s => quoteJSON s
  | JSONValue.stringArray xs => "[" ++ ",".intercalate (xs.map quoteJSON) ++ "]"

/-- Compact text of a JSON object. -/
def renderObject (kvs : List (String × JSONValue)) : String :=
  "\x7b" ++ ",".intercalate (kvs.map (fun kv => quoteJSON kv.1 ++ ":" ++ renderValue kv.2))
    ++ "\x7d"

/-- An environment with `DebugLevel = 1`, a `range` that visits entries in the order they were
stored, an encoder that always succeeds, and a build in which every function of the package
has a frame of its own, reported at the line of its call. -/
def verboseEnv : Env :=
  ⟨1, "goroutine 1 [running]:\nmain.main()\n", fun m => m, fun m => List.Perm.refl m,
   fun kvs => Except.ok (renderObject kvs), "hecate.go", "hecate",
   fun f callers => f :: callers⟩

/-- The environment `verboseEnv` with `DebugLevel = 0`. -/
def quietEnv : Env :=
  ⟨0, "goroutine 1 [running]:\nmain.main()\n", fun m => m, fun m => List.Perm.refl m,
   fun kvs => Except.ok (renderObject kvs), "hecate.go", "hecate",
   fun f callers => f :: callers⟩

/-- The environment `verboseEnv` with a `range` that visits the entries last to first. -/
def reverseEnv : Env :=
  ⟨1, "goroutine 1 [running]:\nmain.main()\n", fun m => m.reverse, fun m => List.reverse_perm m,
   fun kvs => Except.ok (renderObject kvs), "hecate.go", "hecate",
   fun f callers => f :: callers⟩

/-- The environment `verboseEnv` with an encoder that is forced to fail. -/
def failingEnv : Env :=
  ⟨1, "goroutine 1 [running]:\nmain.main()\n", fun m => m, fun m => List.Perm.refl m,
   fun _ => Except.error "json: unsupported value", "hecate.go", "hecate",
   fun f callers => f :: callers⟩

/-- An application stack: a handler called from the server loop. -/
def appStack : List Frame :=
  [⟨"main.go", 42, "main.handler"⟩, ⟨"server.go", 7, "main.serve"⟩]

/-! ## Lemmas on the model -/

theorem mapSet_fresh (m : FrameMap) (k : Nat) (v : String) (h : ∀ e ∈ m, e.1 < k) :
    mapSet m k v = m ++ [(k, v)] := by
  unfold mapSet
  congr 1
  apply List.filter_eq_self.mpr
  intro e he
  have := h e he
  simp
  omega

theorem evenEntries_step (fpcs : List Frame) (i n : Nat) (h : i < n) :
    evenEntries fpcs i n
      = (i, frameString (fpcs.getD i zeroFrame)) :: evenEntries fpcs (i + 1 + 1) n := by
  unfold evenEntries
  have e : (n - i + 1) / 2 = (n - (i + 1 + 1) + 1) / 2 + 1 := by omega
  rw [e, List.range_succ_eq_map]
  simp only [List.map_cons, List.map_map, Nat.mul_zero, Nat.add_zero]
  congr 1
  apply List.map_congr_left
  intro k _
  simp only [Function.comp]
  have e2 : i + 2 * (k + 1) = i + 1 + 1 + 2 * k := by omega
  rw [e2]

theorem evenEntries_done (fpcs : List Frame) (i n : Nat) (h : ¬ i < n) :
    evenEntries fpcs i n = [] := by
  unfold evenEntries
  have e : (n - i + 1) / 2 = 0 := by omega
  rw [e]
  rfl

theorem captureLoop_eq (fpcs : List Frame) (length : Nat) :
    ∀ (fuel i : Nat) (frames : FrameMap) (log : List String),
      (∀ e ∈ frames, e.1 < i) → length ≤ i + 2 * fuel →
      captureLoop fpcs length fuel i frames log
        = (frames ++ evenEntries fpcs i length,
           log ++ (evenEntries fpcs i length).map (fun e => e.2)) := by
  intro fuel
  induction fuel with
  | zero =>
    intro i frames log _ hf
    have hi : ¬ i < length := by omega
    simp [captureLoop, evenEntries_done fpcs i length hi]
  | succ fuel ih =>
    intro i frames log hk hf
    by_cases hi : i < length
    · rw [captureLoop, if_pos hi, mapSet_fresh frames i _ hk, evenEntries_step fpcs i length hi]
      rw [ih]
      · simp
      · intro e he
        rcases List.mem_append.mp he with h1 | h1
        · have := hk e h1
          omega
        · simp at h1
          rw [h1]
          show i < i + 1 + 1
          omega
      · omega
    · rw [captureLoop, if_neg hi, evenEntries_done fpcs i length hi]
      simp

theorem fpcs_eq (env : Env) (callers : List Frame) : fpcs env callers = callers.take 32 := by
  simp [fpcs, runtimeCallers]

theorem fpcs_length_le (env : Env) (callers : List Frame) : (fpcs env callers).length ≤ 32 := by
  rw [fpcs_eq]
  simp [List.length_take]

theorem foldl_goAppend_some (l : FrameMap) (xs : List String) :
    l.foldl (fun trace e => goAppend trace e.2) (some xs) = some (xs ++ l.map (fun e => e.2)) := by
  induction l generalizing xs with
  | nil => simp
  | cons a t ih =>
    rw [List.foldl_cons]
    show List.foldl (fun trace e => goAppend trace e.2) (some (xs ++ [a.2])) t = _
    rw [ih]
    simp

theorem foldl_goAppend_none (l : FrameMap) :
    l.foldl (fun trace e => goAppend trace e.2) none
      = if l = [] then none else some (l.map (fun e => e.2)) := by
  cases l with
  | nil => simp
  | cons a t =>
    rw [List.foldl_cons]
    show List.foldl (fun trace e => goAppend trace e.2) (some [a.2]) t = _
    rw [foldl_goAppend_some]
    simp

theorem rangeOrder_eq_nil (env : Env) (m : FrameMap) : env.rangeOrder m = [] ↔ m = [] := by
  constructor
  · intro h
    have hp := env.rangeOrder_perm m
    rw [h] at hp
    exact List.Perm.nil_eq hp |>.symm ▸ rfl
  · intro h
    subst h
    exact List.Perm.eq_nil (env.rangeOrder_perm [])

theorem buildErrorInfo_eq (env : Env) (frames : FrameMap) (msg : String) :
    buildErrorInfo env frames msg
      = ⟨if frames = [] then none else some ((env.rangeOrder frames).map (fun e => e.2)), msg⟩ := by
  unfold buildErrorInfo
  rw [foldl_goAppend_none]
  by_cases h : frames = []
  · subst h
    simp [(rangeOrder_eq_nil env []).mpr rfl]
  · have h2 : env.rangeOrder frames ≠ [] := fun h3 => h ((rangeOrder_eq_nil env frames).mp h3)
    simp [h, h2]

theorem record_httpError (m : String) (c : Int) :
    record (httpError m c)
      = ⟨[("Content-Type", "text/plain; charset=utf-8"), ("X-Content-Type-Options", "nosniff")],
         some c, m ++ "\n"⟩ := by
  simp [record, httpError, Response.step]

theorem record_jsonResponse (b : String) (c : Int) :
    record (jsonResponse b c) = ⟨[("Content-Type", "application/json")], some c, b⟩ := by
  simp [record, jsonResponse, Response.step]

theorem captureFrames_perFrame (env : Env) (callers : List Frame) :
    captureFrames env callers false
      = (evenEntries (fpcs env callers) 0 (fpcs env callers).length,
         (evenEntries (fpcs env callers) 0 (fpcs env callers).length).map (fun e => e.2)) := by
  unfold captureFrames
  rw [if_neg (by simp), captureLoop_eq]
  · simp
  · intro e he
    cases he
  · omega

theorem captureFrames_allStacks (env : Env) (callers : List Frame) :
    captureFrames env callers true = ([(0, env.goroutineDump)], []) := by
  simp [captureFrames, mapSet]

theorem handleAllErrors_plain (env : Env) (callers : List Frame) (err : String) (status : Int)
    (stackDump allStacks : Bool) (h : stackDump = false ∨ env.DebugLevel ≤ 0) :
    (handleAllErrors env callers (some err) status stackDump allStacks).calls
        = httpError err status
      ∧ (handleAllErrors env callers (some err) status stackDump allStacks).panicked = false := by
  unfold handleAllErrors
  cases stackDump with
  | false => simp
  | true =>
    have hd : ¬ env.DebugLevel > 0 := by
      rcases h with h | h
      · cases h
      · omega
    simp [hd]

theorem handleAllErrors_marshalled (env : Env) (callers : List Frame) (err : String)
    (status : Int) (allStacks : Bool) (jsonBytes : String) (hd : env.DebugLevel > 0)
    (hm : jsonMarshal env (buildErrorInfo env (captureFrames env callers allStacks).1 err)
      = Except.ok jsonBytes) :
    handleAllErrors env callers (some err) status true allStacks
      = ⟨jsonResponse jsonBytes status, (captureFrames env callers allStacks).2, false⟩ := by
  unfold handleAllErrors
  simp [hd, hm]

theorem handleAllErrors_marshalFailed (env : Env) (callers : List Frame) (err : String)
    (status : Int) (allStacks : Bool) (e : String) (hd : env.DebugLevel > 0)
    (hm : jsonMarshal env (buildErrorInfo env (captureFrames env callers allStacks).1 err)
      = Except.error e) :
    handleAllErrors env callers (some err) status true allStacks
      = ⟨httpError e status, (captureFrames env callers allStacks).2, false⟩ := by
  unfold handleAllErrors
  simp [hd, hm]

theorem handleAllErrors_log (env : Env) (callers : List Frame) (err : String) (status : Int)
    (allStacks : Bool) :
    (handleAllErrors env callers (some err) status true allStacks).log
      = (captureFrames env callers allStacks).2 := by
  unfold handleAllErrors
  by_cases hd : env.DebugLevel > 0
  · cases hm : jsonMarshal env (buildErrorInfo env (captureFrames env callers allStacks).1 err)
      <;> simp [hd, hm]
  · simp [hd]

theorem evenEntries_length (l : List Frame) (n : Nat) :
    (evenEntries l 0 n).length = (n + 1) / 2 := by
  simp [evenEntries]

theorem evenEntries_keys (l : List Frame) (n : Nat) :
    (evenEntries l 0 n).map (fun e => e.1) = (List.range ((n + 1) / 2)).map (fun k => 2 * k) := by
  simp [evenEntries, Function.comp_def]

theorem dropWhile_length_le (p : Char → Bool) (s : List Char) :
    (s.dropWhile p).length ≤ s.length := by
  induction s with
  | nil => simp
  | cons c cs ih =>
    rw [List.dropWhile_cons]
    split
    · simp only [List.length_cons]
      omega
    · exact Nat.le_refl _

theorem parsenum_rest_length (s : List Char) :
    ∀ (num : Nat) (isnum : Bool), (parsenum s num isnum).2.2.length ≤ s.length := by
  induction s with
  | nil =>
    intro num isnum
    simp [parsenum]
  | cons c cs ih =>
    intro num isnum
    unfold parsenum
    by_cases hd : c.isDigit = true
    · by_cases hl : tooLarge num = true
      · simp [hd, hl]
      · simp only [hd, hl, if_true, if_false, Bool.false_eq_true, List.length_cons]
        have := ih (num * 10 + (c.toNat - 48)) true
        omega
    · simp [hd]

theorem parseArgNumber_rest_length (rest : List Char) :
    (parseArgNumber rest).1.length ≤ rest.length := by
  unfold parseArgNumber
  by_cases hl : rest.length < 2
  · simp [hl]
  · simp only [hl, if_false]
    have hd := dropWhile_length_le (fun c => c != ']') rest
    split
    · exact Nat.le_refl _
    · rename_i x after heq
      rw [heq] at hd
      simp only [List.length_cons] at hd
      split <;> simp only <;> omega

theorem argNumber_rest_length (s : List Char) : (argNumber s).1.length ≤ s.length := by
  unfold argNumber
  split
  · rename_i rest
    have := parseArgNumber_rest_length rest
    simp only [List.length_cons]
    omega
  · exact Nat.le_refl _

theorem parseWidth_rest_length (s : List Char) (afterIndex : Bool) :
    (parseWidth s afterIndex).2.1.length ≤ s.length := by
  unfold parseWidth
  split
  · simp
  · exact parsenum_rest_length s 0 false

theorem parsePrecision_rest_length (s : List Char) (afterIndex : Bool) :
    (parsePrecision s afterIndex).2.1.length ≤ s.length := by
  unfold parsePrecision
  split
  · rename_i c t
    have h1 := argNumber_rest_length (c :: t)
    split
    · rename_i u heq
      rw [heq] at h1
      simp only [List.length_cons] at h1 ⊢
      omega
    · rename_i u hne
      have h2 := parsenum_rest_length (argNumber (c :: t)).1 0 false
      simp only [List.length_cons] at h1 ⊢
      omega
  · exact Nat.le_refl _

theorem parseVerb_rest_length (s : List Char) (bad : Bool) :
    (parseVerb s bad).2.length ≤ s.length := by
  unfold parseVerb
  split
  · simp
  · rename_i verb t
    by_cases h1 : (verb == '%') = true
    · simp [h1]
    · by_cases h2 : bad = true
      · simp [h1, h2]
      · simp [h1, h2]

theorem directive_rest_length (s : List Char) : (directive s).2.length ≤ s.length := by
  unfold directive
  simp only
  have h1 := dropWhile_length_le isFlag s
  have h2 := argNumber_rest_length (s.dropWhile isFlag)
  have h3 := parseWidth_rest_length (argNumber (s.dropWhile isFlag)).1
    (argNumber (s.dropWhile isFlag)).2.1
  generalize parseWidth (argNumber (s.dropWhile isFlag)).1 (argNumber (s.dropWhile isFlag)).2.1
    = w at h3 ⊢
  have h4 := parsePrecision_rest_length w.2.1 w.2.2.1
  generalize parsePrecision w.2.1 w.2.2.1 = p at h4 ⊢
  have h5 : (if p.2.2.1 = true then (p.2.1, false, false) else argNumber p.2.1).1.length
      ≤ p.2.1.length := by
    split
    · exact Nat.le_refl _
    · exact argNumber_rest_length p.2.1
  generalize (if p.2.2.1 = true then (p.2.1, false, false) else argNumber p.2.1) = a2 at h5 ⊢
  have h6 := parseVerb_rest_length a2.1
    ((argNumber (s.dropWhile isFlag)).2.2 || w.2.2.2 || p.2.2.2 || a2.2.2)
  omega

/-- Fuel above the length of the format is never used up: any two such amounts give the
same text. -/
theorem doPrintf_fuel (f1 : Nat) :
    ∀ (f2 : Nat) (s : List Char), s.length < f1 → s.length < f2 →
      doPrintf f1 s = doPrintf f2 s := by
  induction f1 with
  | zero =>
    intro f2 s h1 _
    omega
  | succ n ih =>
    intro f2 s h1 h2
    cases f2 with
    | zero => omega
    | succ m =>
      unfold doPrintf
      have hd := dropWhile_length_le (fun c => c != '%') s
      split
      · rfl
      · rename_i x t heq
        rw [heq] at hd
        simp only [List.length_cons] at hd
        have hr := directive_rest_length t
        rw [ih m (directive t).2 (by omega) (by omega)]

/-- A format without a percent sign is the message itself. -/
theorem Errorf_of_no_percent (format : String) (h : '%' ∉ format.toList) :
    Errorf format = format := by
  unfold Errorf
  unfold doPrintf
  have hall : ∀ c ∈ format.toList, (c != '%') = true := by
    intro c hc
    simp only [bne_iff_ne, ne_eq]
    intro he
    exact h (he ▸ hc)
  have hd : format.toList.dropWhile (fun c => c != '%') = [] :=
    List.dropWhile_eq_nil_iff.mpr hall
  have ht : format.toList.takeWhile (fun c => c != '%') = format.toList :=
    List.takeWhile_eq_self_iff.mpr hall
  rw [hd]
  simp only [ht]
  rfl

theorem ReportAndPassError_eq (env : Env) (callers : List Frame) (str : String) (status : Int)
    (stackDump : Bool) :
    ReportAndPassError env callers str status stackDump
      = (⟨true⟩,
         HandleError env (env.entry (ownFrame env "ReportAndPassError" 35) callers)
           (some (Errorf str)) status stackDump) :=
  rfl

/-- Without a percent sign in `str` and with `stackDump = false`, `ReportAndPassError` writes
`str` and a line feed with the status given, logs nothing and returns `ErrorBox{true}`. -/
theorem ReportAndPassError_plain (env : Env) (callers : List Frame) (str : String)
    (status : Int) (h : '%' ∉ str.toList) :
    ReportAndPassError env callers str status false
      = (⟨true⟩, ⟨httpError str status, [], false⟩) := by
  rw [ReportAndPassError_eq, Errorf_of_no_percent str h]
  rfl

theorem jsonResponse_ne_httpError (b m : String) (s t : Int) :
    jsonResponse b s ≠ httpError m t := by
  intro hb
  have hl := congrArg List.length hb
  simp [httpError, jsonResponse] at hl

/-- For a non-nil error `handleAllErrors` returns normally, and its calls on the writer are
those of `http.Error` for some message or those of the JSON branch for some body. -/
theorem handleAllErrors_cases (env : Env) (callers : List Frame) (err : String) (status : Int)
    (stackDump allStacks : Bool) :
    (handleAllErrors env callers (some err) status stackDump allStacks).panicked = false
      ∧ ((∃ m, (handleAllErrors env callers (some err) status stackDump allStacks).calls
            = httpError m status)
          ∨ (∃ b, (handleAllErrors env callers (some err) status stackDump allStacks).calls
            = jsonResponse b status)) := by
  by_cases h : stackDump = false ∨ env.DebugLevel ≤ 0
  · have h1 := handleAllErrors_plain env callers err status stackDump allStacks h
    exact ⟨h1.2, Or.inl ⟨err, h1.1⟩⟩
  · have hs : stackDump = true := by
      cases stackDump with
      | false => exact absurd (Or.inl rfl) h
      | true => rfl
    have hd : env.DebugLevel > 0 := by
      by_contra hc
      exact h (Or.inr (by omega))
    subst hs
    cases hm : jsonMarshal env (buildErrorInfo env (captureFrames env callers allStacks).1 err) with
    | error e =>
      rw [handleAllErrors_marshalFailed env callers err status allStacks e hd hm]
      exact ⟨rfl, Or.inl ⟨e, rfl⟩⟩
    | ok b =>
      rw [handleAllErrors_marshalled env callers err status allStacks b hd hm]
      exact ⟨rfl, Or.inr ⟨b, rfl⟩⟩

/-! ## The claims -/

/-- C1, as amended: for every non-nil error, status and `DebugLevel`, a call of
`handleAllErrors` with `stackDump = false`, or with `stackDump = true` while `DebugLevel ≤ 0`
(for either `allStacks` and any call stack), writes the plain-text response of `http.Error`:
the status is the input status, the body is `err.Error()` followed by one line feed, the
`Content-Type` is `text/plain; charset=utf-8` and so not `application/json`, and the calls
on the writer are those of the `stackDump = false` case. -/
theorem C1_plain_text_response (env : Env) (callers : List Frame) (err : String) (status : Int)
    (stackDump allStacks : Bool) (h : stackDump = false ∨ env.DebugLevel ≤ 0) :
    (handleAllErrors env callers (some err) status stackDump allStacks).calls
        = httpError err status
      ∧ (handleAllErrors env callers (some err) status stackDump allStacks).panicked = false
      ∧ (record (handleAllErrors env callers (some err) status stackDump allStacks).calls).status
        = some status
      ∧ (record (handleAllErrors env callers (some err) status stackDump allStacks).calls).body
        = err ++ "\n"
      ∧ (record
          (handleAllErrors env callers (some err) status stackDump allStacks).calls).contentType
        = some "text/plain; charset=utf-8"
      ∧ (record
          (handleAllErrors env callers (some err) status stackDump allStacks).calls).contentType
        ≠ some "application/json"
      ∧ (handleAllErrors env callers (some err) status stackDump allStacks).calls
        = (handleAllErrors env callers (some err) status false allStacks).calls := by
  have h1 := handleAllErrors_plain env callers err status stackDump allStacks h
  have h2 := handleAllErrors_plain env callers err status false allStacks (Or.inl rfl)
  rw [h1.1, h2.1, record_httpError]
  refine ⟨rfl, h1.2, rfl, rfl, ?_, ?_, rfl⟩
  · simp [Response.contentType]
  · simp [Response.contentType]

/-- C1, witness: `stackDump = true` with `DebugLevel = 0`. -/
theorem C1_plain_text_response_witness :
    ((true = false ∨ quietEnv.DebugLevel ≤ 0)
      ∧ (handleAllErrors quietEnv appStack (some "boom") 404 true false).calls
        = httpError "boom" 404) :=
  ⟨Or.inr (by decide),
   (C1_plain_text_response quietEnv appStack "boom" 404 true false (Or.inr (by decide))).1⟩

/-- C1, counterexample: with `stackDump = false` the body recorded for the error `boom` is
`boom` followed by a line feed, which is not `err.Error()` verbatim. -/
theorem C1_body_not_verbatim :
    (record (handleAllErrors quietEnv appStack (some "boom") 404 false false).calls).body
        = "boom\n"
      ∧ (record (handleAllErrors quietEnv appStack (some "boom") 404 false false).calls).body
        ≠ "boom" := by
  decide

/-- C2: for every non-nil error and status, when `handleAllErrors` runs with
`stackDump = true`, `DebugLevel > 0` and `json.Marshal` succeeds with `jsonBytes`, the calls on
the writer are `Header().Set("Content-Type", "application/json")`, `WriteHeader(status)`,
`Write(jsonBytes)`; `jsonBytes` encodes the object with exactly the keys `trace` and `err`,
where `err` is `err.Error()` and `trace` is the list of the strings stored in `frames`, in the
order the `range` visits them, or `null` when no frame was captured; zero frames is not an
error. -/
theorem C2_json_response (env : Env) (callers : List Frame) (err : String) (status : Int)
    (allStacks : Bool) (jsonBytes : String) (hd : env.DebugLevel > 0)
    (hm : jsonMarshal env (buildErrorInfo env (captureFrames env callers allStacks).1 err)
      = Except.ok jsonBytes) :
    (handleAllErrors env callers (some err) status true allStacks).calls
        = [Call.headerSet "Content-Type" "application/json", Call.writeHeader status,
           Call.write jsonBytes]
      ∧ (handleAllErrors env callers (some err) status true allStacks).panicked = false
      ∧ (record (handleAllErrors env callers (some err) status true allStacks).calls).contentType
        = some "application/json"
      ∧ (record (handleAllErrors env callers (some err) status true allStacks).calls).status
        = some status
      ∧ (record (handleAllErrors env callers (some err) status true allStacks).calls).body
        = jsonBytes
      ∧ env.jsonEncode
          [("trace",
            if (captureFrames env callers allStacks).1 = [] then JSONValue.null
            else JSONValue.stringArray
              ((env.rangeOrder (captureFrames env callers allStacks).1).map (fun e => e.2))),
           ("err", JSONValue.string err)]
        = Except.ok jsonBytes
      ∧ ((captureFrames env callers allStacks).1 = []
          ↔ (allStacks = false ∧ fpcs env callers = [])) := by
  rw [handleAllErrors_marshalled env callers err status allStacks jsonBytes hd hm]
  refine ⟨rfl, rfl, ?_, ?_, ?_, ?_, ?_⟩
  · simp [record_jsonResponse, Response.contentType]
  · simp [record_jsonResponse]
  · simp [record_jsonResponse]
  · rw [← hm, buildErrorInfo_eq]
    unfold jsonMarshal errorInfo.toJSON
    by_cases hf : (captureFrames env callers allStacks).1 = []
    · simp [hf]
    · simp [hf]
  · cases allStacks with
    | true => simp [captureFrames_allStacks]
    | false =>
      rw [captureFrames_perFrame]
      simp only [true_and]
      constructor
      · intro h
        have hl := congrArg List.length h
        rw [evenEntries_length] at hl
        simp at hl
        exact List.length_eq_zero.mp (by omega)
      · intro h
        rw [h]
        rfl

/-- C2, witness: a per-frame call with three captured frames. -/
theorem C2_json_response_witness :
    (verboseEnv.DebugLevel > 0
      ∧ (handleAllErrors verboseEnv appStack (some "boom") 404 true false).calls
        = [Call.headerSet "Content-Type" "application/json", Call.writeHeader 404,
           Call.write
             "\x7b\"trace\":[\"main.go:42 main.handler\\n\"],\"err\":\"boom\"\x7d"]) :=
  ⟨by decide,
   (C2_json_response verboseEnv appStack "boom" 404 false
      "\x7b\"trace\":[\"main.go:42 main.handler\\n\"],\"err\":\"boom\"\x7d"
      (by decide) (by rfl)).1⟩

/-- C3, at a failing input: `HandleError` is called from `main.handler`, itself called from
`main.serve`.  `runtime.Callers` returns three frames, yet the trace has two entries: the
frame of `main.handler` is missing from the trace and from the response. -/
theorem C3_trace_misses_frames :
    (fpcs verboseEnv (ownFrame verboseEnv "HandleError" 50 :: appStack)).length = 3
      ∧ (buildErrorInfo verboseEnv
          (captureFrames verboseEnv (ownFrame verboseEnv "HandleError" 50 :: appStack) false).1
          "boom").Trace
        = some ["hecate.go:50 hecate.HandleError\n", "server.go:7 main.serve\n"]
      ∧ (HandleError verboseEnv appStack (some "boom") 404 true).calls
        = jsonResponse
          ("\x7b\"trace\":[\"hecate.go:50 hecate.HandleError\\n\",\"server.go:7 main.serve\\n\"],"
            ++ "\"err\":\"boom\"\x7d") 404 := by
  decide

/-- C4, at a failing input: the same call stack and the same map `frames`, under a `range`
that visits the entries in the order stored and under one that visits them last to first.
The two runs report the frames in opposite orders, so the responses differ and the second
is not in call-chain order. -/
theorem C4_trace_order_depends_on_range :
    captureFrames verboseEnv (ownFrame verboseEnv "HandleError" 50 :: appStack) false
        = captureFrames reverseEnv (ownFrame reverseEnv "HandleError" 50 :: appStack) false
      ∧ (buildErrorInfo verboseEnv
          (captureFrames verboseEnv (ownFrame verboseEnv "HandleError" 50 :: appStack) false).1
          "boom").Trace
        = some ["hecate.go:50 hecate.HandleError\n", "server.go:7 main.serve\n"]
      ∧ (buildErrorInfo reverseEnv
          (captureFrames reverseEnv (ownFrame reverseEnv "HandleError" 50 :: appStack) false).1
          "boom").Trace
        = some ["server.go:7 main.serve\n", "hecate.go:50 hecate.HandleError\n"]
      ∧ (HandleError verboseEnv appStack (some "boom") 404 true).calls
        ≠ (HandleError reverseEnv appStack (some "boom") 404 true).calls := by
  decide

/-- C5: for every error message `e` that `json.Marshal` returns, with `stackDump = true`
and `DebugLevel > 0`, `handleAllErrors` writes the plain-text response of `http.Error` for the
message `e` of the serialization error (not the message of the original error): the body
is `e` as `http.Error` writes it, that is `e` and a line feed, the status is the input
status (not 500 in its place), and none of the calls of the JSON branch is made: no
`application/json` header, and the calls differ from those of every JSON response. -/
theorem C5_marshal_failure_plain_text (env : Env) (callers : List Frame) (err : String)
    (status : Int) (allStacks : Bool) (e : String) (hd : env.DebugLevel > 0)
    (hm : jsonMarshal env (buildErrorInfo env (captureFrames env callers allStacks).1 err)
      = Except.error e) :
    (handleAllErrors env callers (some err) status true allStacks).calls = httpError e status
      ∧ (handleAllErrors env callers (some err) status true allStacks).panicked = false
      ∧ (record (handleAllErrors env callers (some err) status true allStacks).calls).status
        = some status
      ∧ (record (handleAllErrors env callers (some err) status true allStacks).calls).body
        = e ++ "\n"
      ∧ (record (handleAllErrors env callers (some err) status true allStacks).calls).contentType
        = some "text/plain; charset=utf-8"
      ∧ Call.headerSet "Content-Type" "application/json"
        ∉ (handleAllErrors env callers (some err) status true allStacks).calls
      ∧ (∀ b : String, (handleAllErrors env callers (some err) status true allStacks).calls
        ≠ jsonResponse b status) := by
  rw [handleAllErrors_marshalFailed env callers err status allStacks e hd hm]
  refine ⟨rfl, rfl, ?_, ?_, ?_, ?_, ?_⟩
  · simp [record_httpError]
  · simp [record_httpError]
  · simp [record_httpError, Response.contentType]
  · simp [httpError]
  · intro b hb
    have hl := congrArg List.length hb
    simp [httpError, jsonResponse] at hl

/-- C5, witness: the encoder is forced to fail. -/
theorem C5_marshal_failure_plain_text_witness :
    (failingEnv.DebugLevel > 0
      ∧ (handleAllErrors failingEnv appStack (some "boom") 404 true false).calls
        = httpError "json: unsupported value" 404) :=
  ⟨by decide,
   (C5_marshal_failure_plain_text failingEnv appStack "boom" 404 false
      "json: unsupported value" (by decide) (by rfl)).1⟩

/-- C6: every call of `handleAllErrors` with a non-nil error returns without a panic and has
written exactly one response: its calls on the writer are either those of the JSON branch
(`Header().Set`, `WriteHeader`, `Write`, once each) or those of `http.Error`, never both and
never neither; `WriteHeader` and `Write` are each called exactly once. -/
theorem C6_exactly_one_response (env : Env) (callers : List Frame) (err : String) (status : Int)
    (stackDump allStacks : Bool) :
    (handleAllErrors env callers (some err) status stackDump allStacks).panicked = false
      ∧ (((∃ b, (handleAllErrors env callers (some err) status stackDump allStacks).calls
              = jsonResponse b status)
            ∧ ¬ (∃ m, (handleAllErrors env callers (some err) status stackDump allStacks).calls
              = httpError m status))
          ∨ ((∃ m, (handleAllErrors env callers (some err) status stackDump allStacks).calls
              = httpError m status)
            ∧ ¬ (∃ b, (handleAllErrors env callers (some err) status stackDump allStacks).calls
              = jsonResponse b status)))
      ∧ (handleAllErrors env callers (some err) status stackDump allStacks).calls.countP
          Call.isWriteHeader = 1
      ∧ (handleAllErrors env callers (some err) status stackDump allStacks).calls.countP
          Call.isWrite = 1 := by
  have hcases := handleAllErrors_cases env callers err status stackDump allStacks
  rcases hcases with ⟨hp, ⟨m, hc⟩ | ⟨b, hc⟩⟩
  · refine ⟨hp, Or.inr ⟨⟨m, hc⟩, ?_⟩, ?_, ?_⟩
    · rintro ⟨b, hb⟩
      exact jsonResponse_ne_httpError b m status status (hb.symm.trans hc)
    · rw [hc]
      rfl
    · rw [hc]
      rfl
  · refine ⟨hp, Or.inl ⟨⟨b, hc⟩, ?_⟩, ?_, ?_⟩
    · rintro ⟨m, hm⟩
      exact jsonResponse_ne_httpError b m status status (hc.symm.trans hm)
    · rw [hc]
      rfl
    · rw [hc]
      rfl

/-- C7, at a failing input: the string `disk 100% full` is used as a format, so the error
built has the message `disk 100%!f(MISSING)ull` and that text, not the string given, is
what the writer receives. -/
theorem C7_message_rewritten_by_format :
    Errorf "disk 100% full" = "disk 100%!f(MISSING)ull"
      ∧ ReportAndPassError verboseEnv appStack "disk 100% full" 503 false
        = (⟨true⟩, ⟨httpError "disk 100%!f(MISSING)ull" 503, [], false⟩)
      ∧ (record (ReportAndPassError verboseEnv appStack "disk 100% full" 503 false).2.calls).body
        ≠ "disk 100% full\n" := by
  decide

/-- C8: for every `DebugLevel > 0`, `HandlePanic` (on an encoder that succeeds with
`jsonBytes`) writes the JSON response with status 500 whose `err` is `Panic.` and whose `trace`
has exactly one element, the text block obtained from `runtime.Stack(buf, true)`, verbatim
and not split into lines; the element is non-empty whenever the count returned is positive. -/
theorem C8_panic_json_response (env : Env) (callers : List Frame) (jsonBytes : String)
    (hd : env.DebugLevel > 0)
    (hm : env.jsonEncode
        [("trace", JSONValue.stringArray [env.goroutineDump]), ("err", JSONValue.string "Panic.")]
      = Except.ok jsonBytes) :
    (HandlePanic env callers).calls = jsonResponse jsonBytes 500
      ∧ (HandlePanic env callers).panicked = false
      ∧ (record (HandlePanic env callers).calls).status = some 500
      ∧ (record (HandlePanic env callers).calls).contentType = some "application/json"
      ∧ (record (HandlePanic env callers).calls).body = jsonBytes
      ∧ buildErrorInfo env
          (captureFrames env (ownFrame env "HandlePanic" 57 :: callers) true).1 (Errorf "Panic.")
        = ⟨some [env.goroutineDump], "Panic."⟩
      ∧ (0 < env.goroutineDump.utf8ByteSize → env.goroutineDump ≠ "")
      ∧ buildErrorInfo env
          (captureFrames env (env.entry (ownFrame env "HandlePanic" 57) callers) true).1
          (Errorf "Panic.")
        = ⟨some [env.goroutineDump], "Panic."⟩ := by
  have hi : ∀ stack : List Frame,
      buildErrorInfo env (captureFrames env stack true).1 (Errorf "Panic.")
        = ⟨some [env.goroutineDump], "Panic."⟩ := by
    intro stack
    rw [buildErrorInfo_eq, captureFrames_allStacks]
    have hp := List.perm_singleton.mp (env.rangeOrder_perm [(0, env.goroutineDump)])
    simp only [hp]
    have he : Errorf "Panic." = "Panic." := by decide
    rw [he]
    simp
  have hm2 : jsonMarshal env (buildErrorInfo env
      (captureFrames env (env.entry (ownFrame env "HandlePanic" 57) callers) true).1
      (Errorf "Panic.")) = Except.ok jsonBytes := by
    rw [hi]
    exact hm
  unfold HandlePanic
  rw [handleAllErrors_marshalled env _ (Errorf "Panic.") 500 true jsonBytes hd hm2]
  refine ⟨rfl, rfl, ?_, ?_, ?_, hi _, ?_, hi _⟩
  · simp [record_jsonResponse]
  · simp [record_jsonResponse, Response.contentType]
  · simp [record_jsonResponse]
  · intro hpos hempty
    rw [hempty] at hpos
    exact absurd hpos (by decide)

/-- C8, witness: a panic reported with `DebugLevel = 1`. -/
theorem C8_panic_json_response_witness :
    (verboseEnv.DebugLevel > 0
      ∧ (record (HandlePanic verboseEnv appStack).calls).status = some 500
      ∧ (record (HandlePanic verboseEnv appStack).calls).body
        = "\x7b\"trace\":[\"goroutine 1 [running]:\\nmain.main()\\n\"],\"err\":\"Panic.\"\x7d") :=
  ⟨by decide,
   (C8_panic_json_response verboseEnv appStack
      "\x7b\"trace\":[\"goroutine 1 [running]:\\nmain.main()\\n\"],\"err\":\"Panic.\"\x7d"
      (by decide) (by rfl)).2.2.1,
   (C8_panic_json_response verboseEnv appStack
      "\x7b\"trace\":[\"goroutine 1 [running]:\\nmain.main()\\n\"],\"err\":\"Panic.\"\x7d"
      (by decide) (by rfl)).2.2.2.2.1⟩

/-- C9, as amended: in per-frame mode `runtime.Callers(2, fpcs)` skips only its own frame
and the frame of the capturer `handleAllErrors`, so the walk starts one level above the
capture point, at the return address in the immediate caller of the capturer.  The frames
captured are the first 32 of the stack above the capturer, and the first of them, whatever
function the build resolves it to, is logged and, for a non-nil error, part of the trace.
Nothing excludes the public entry point `HandleError`. -/
theorem C9_walk_starts_at_immediate_caller (env : Env) (callers : List Frame) (f : Frame)
    (rest : List Frame) (err : String) (status : Int)
    (h : env.entry (ownFrame env "HandleError" 50) callers = f :: rest) :
    fpcs env (env.entry (ownFrame env "HandleError" 50) callers)
        = (env.entry (ownFrame env "HandleError" 50) callers).take 32
      ∧ (fpcs env (env.entry (ownFrame env "HandleError" 50) callers)).head? = some f
      ∧ frameString f ∈ (HandleError env callers (some err) status true).log
      ∧ (∃ t, (buildErrorInfo env
            (captureFrames env (env.entry (ownFrame env "HandleError" 50) callers) false).1
            err).Trace = some t
          ∧ frameString f ∈ t) := by
  have hf := fpcs_eq env (env.entry (ownFrame env "HandleError" 50) callers)
  have hmem : (0, frameString f)
      ∈ evenEntries (fpcs env (env.entry (ownFrame env "HandleError" 50) callers)) 0
          (fpcs env (env.entry (ownFrame env "HandleError" 50) callers)).length := by
    rw [evenEntries_step _ _ _ (by rw [hf, h]; simp)]
    rw [hf, h]
    simp
  refine ⟨hf, by rw [hf, h]; rfl, ?_, ?_⟩
  · unfold HandleError
    rw [handleAllErrors_log, captureFrames_perFrame]
    exact List.mem_map.mpr ⟨_, hmem, rfl⟩
  · rw [buildErrorInfo_eq, captureFrames_perFrame]
    have hne : evenEntries (fpcs env (env.entry (ownFrame env "HandleError" 50) callers)) 0
        (fpcs env (env.entry (ownFrame env "HandleError" 50) callers)).length ≠ [] :=
      List.ne_nil_of_mem hmem
    simp only [if_neg hne]
    exact ⟨_, rfl, List.mem_map.mpr ⟨_, (env.rangeOrder_perm _).mem_iff.mpr hmem, rfl⟩⟩

/-- C9, witness: a build in which `HandleError` has a frame of its own. -/
theorem C9_walk_starts_at_immediate_caller_witness :
    (verboseEnv.entry (ownFrame verboseEnv "HandleError" 50) appStack
        = ownFrame verboseEnv "HandleError" 50 :: appStack
      ∧ frameString (ownFrame verboseEnv "HandleError" 50)
        ∈ (HandleError verboseEnv appStack (some "boom") 404 true).log) :=
  ⟨rfl,
   (C9_walk_starts_at_immediate_caller verboseEnv appStack
      (ownFrame verboseEnv "HandleError" 50) appStack "boom" 404 rfl).2.2.1⟩

/-- C9, counterexample: `HandleError` is called from `main.handler` in a build that gives
`HandleError` a frame of its own; the first captured frame is the frame of `HandleError`
itself, and it is reported in the trace. -/
theorem C9_entry_point_is_reported :
    (ownFrame verboseEnv "HandleError" 50).function = "hecate.HandleError"
      ∧ (∃ t, (buildErrorInfo verboseEnv
            (captureFrames verboseEnv (ownFrame verboseEnv "HandleError" 50 :: appStack)
              false).1 "boom").Trace = some t
          ∧ frameString (ownFrame verboseEnv "HandleError" 50) ∈ t)
      ∧ (HandleError verboseEnv appStack (some "boom") 404 true).log
        = ["hecate.go:50 hecate.HandleError\n", "server.go:7 main.serve\n"] := by
  refine ⟨by decide, ⟨["hecate.go:50 hecate.HandleError\n", "server.go:7 main.serve\n"],
    by decide, by decide⟩, by decide⟩

/-- C10: in per-frame mode, when `runtime.Callers` returns `n` frames (`n ≤ 32`), the capture
loop stores and logs exactly the frames at the even indices `0, 2, 4, ...` below `n`: the map
`frames`, the log and the trace each hold exactly `(n + 1) / 2` entries, at most 16, the
keys stored are the even numbers below `n`, and no frame at an odd index is logged or
reported. -/
theorem C10_capture_keeps_even_indices (env : Env) (callers : List Frame) (err : String)
    (status : Int) :
    (fpcs env callers).length ≤ 32
      ∧ (captureFrames env callers false).1
        = (List.range (((fpcs env callers).length + 1) / 2)).map
            (fun k => (2 * k, frameString ((fpcs env callers).getD (2 * k) zeroFrame)))
      ∧ (handleAllErrors env callers (some err) status true false).log
        = (List.range (((fpcs env callers).length + 1) / 2)).map
            (fun k => frameString ((fpcs env callers).getD (2 * k) zeroFrame))
      ∧ (buildErrorInfo env (captureFrames env callers false).1 err).Trace
        = (if (fpcs env callers).length = 0 then none
           else some ((env.rangeOrder (captureFrames env callers false).1).map (fun e => e.2)))
      ∧ List.Perm ((env.rangeOrder (captureFrames env callers false).1).map (fun e => e.2))
          ((List.range (((fpcs env callers).length + 1) / 2)).map
            (fun k => frameString ((fpcs env callers).getD (2 * k) zeroFrame)))
      ∧ (captureFrames env callers false).1.length = ((fpcs env callers).length + 1) / 2
      ∧ (handleAllErrors env callers (some err) status true false).log.length
        = ((fpcs env callers).length + 1) / 2
      ∧ ((env.rangeOrder (captureFrames env callers false).1).map (fun e => e.2)).length
        = ((fpcs env callers).length + 1) / 2
      ∧ ((fpcs env callers).length + 1) / 2 ≤ 16
      ∧ (captureFrames env callers false).1.map (fun e => e.1)
        = (List.range (((fpcs env callers).length + 1) / 2)).map (fun k => 2 * k) := by
  have hlen := fpcs_length_le env callers
  have hst : (captureFrames env callers false).1
      = (List.range (((fpcs env callers).length + 1) / 2)).map
          (fun k => (2 * k, frameString ((fpcs env callers).getD (2 * k) zeroFrame))) := by
    rw [captureFrames_perFrame]
    simp [evenEntries]
  have hlog : (handleAllErrors env callers (some err) status true false).log
      = (List.range (((fpcs env callers).length + 1) / 2)).map
          (fun k => frameString ((fpcs env callers).getD (2 * k) zeroFrame)) := by
    rw [handleAllErrors_log, captureFrames_perFrame]
    simp [evenEntries, Function.comp_def]
  have hperm := (env.rangeOrder_perm (captureFrames env callers false).1).map (fun e => e.2)
  refine ⟨hlen, hst, hlog, ?_, ?_, ?_, ?_, ?_, by omega, ?_⟩
  · rw [buildErrorInfo_eq]
    by_cases hn : (fpcs env callers).length = 0
    · have h0 : (captureFrames env callers false).1 = [] := by
        rw [hst, hn]
        rfl
      simp [hn, h0]
    · have h0 : (captureFrames env callers false).1 ≠ [] := by
        intro hc
        have := congrArg List.length hc
        rw [hst] at this
        simp at this
        omega
      simp [hn, h0]
  · refine hperm.trans ?_
    rw [hst]
    simp [Function.comp_def]
  · rw [hst]
    simp
  · rw [hlog]
    simp
  · rw [hperm.length_eq, hst]
    simp
  · rw [hst]
    simp [Function.comp_def]

end Hecate
